import Mathlib

/-!
# Verification of the paused-campaigns aggregation service (src/main.py)

Shallow embedding of the FastAPI service in `src/main.py`:

* Python floats are modelled exactly as unnormalised rational pairs (`PyNum`);
  every arithmetic operation used by the source (`/`, `*`, comparison with `0`,
  `int(...)` truncation, `f"{v:.2f}"` formatting) is given an executable,
  kernel-reducible definition, and bridged to `ℚ` by correctness lemmas.
* The outbound HTTP world is a parameter: a `ListFetchOutcome` for the one
  campaign-list request and, for the concurrent detail fetches, a list of
  `(originating index, DetailOutcome)` pairs in *arrival order*; the
  `asyncio.gather` join is modelled by re-indexing the arrivals by their
  originating index (`gatherInsights`), so completion order is an explicit
  parameter that theorems can quantify over.
* Fallible steps return `FetchResult` (the value, or the text of the raised
  exception), and the handler is instrumented with a `CallTrace` counting the
  outbound list/detail calls actually performed, so "no outbound call is made"
  claims are statable.
-/

/-! ## Exact rational model of Python floats -/

/-- An unnormalised rational number `num / den`, the exact value held by a
Python float in the source.  Kept unnormalised so that all operations reduce
in the kernel. -/
structure PyNum where
  num : Int
  den : Nat
deriving DecidableEq, Repr

namespace PyNum

instance : OfNat PyNum n := ⟨⟨(n : Int), 1⟩⟩

/-- The rational value denoted by a `PyNum`. -/
def toRat (a : PyNum) : ℚ := (a.num : ℚ) / (a.den : ℚ)

/-- Multiplication of exact rationals (Python `*`). -/
def mul (a b : PyNum) : PyNum := ⟨a.num * b.num, a.den * b.den⟩

/-- Reciprocal of an exact rational. -/
def inv (a : PyNum) : PyNum :=
  if 0 ≤ a.num then ⟨(a.den : Int), a.num.natAbs⟩ else ⟨-(a.den : Int), a.num.natAbs⟩

/-- Division of exact rationals (Python `/`). -/
def div (a b : PyNum) : PyNum := a.mul b.inv

/-- The comparison `0 < a` (Python `a > 0`). -/
def pos (a : PyNum) : Bool := 0 < a.num

/-- Python `int(a)`: truncation toward zero. -/
def pyInt (a : PyNum) : Int :=
  if 0 ≤ a.num then ((a.num.natAbs / a.den : Nat) : Int) else -((a.num.natAbs / a.den : Nat) : Int)

end PyNum

/-! ## Decimal rendering: the Python format specifier `.2f` -/

/-- Round an exact rational to the nearest integer, ties to even (the rounding
performed by Python's fixed-point formatting). -/
def roundHalfEven (q : PyNum) : Int :=
  let f := q.num.fdiv (q.den : Int)
  let r := q.num - f * (q.den : Int)
  if 2 * r < (q.den : Int) then f
  else if (q.den : Int) < 2 * r then f + 1
  else if f % 2 = 0 then f else f + 1

/-- Decimal digits of a natural number, most significant first (fuelled,
structurally recursive renderer for the integer part of `f"{v:.2f}"`). -/
def natToDigitsAux : Nat → Nat → List Char → List Char
  | 0, _, acc => acc
  | fuel + 1, n, acc =>
    if n < 10 then Nat.digitChar n :: acc
    else natToDigitsAux fuel (n / 10) (Nat.digitChar (n % 10) :: acc)

/-- Decimal rendering of a natural number. -/
def natRepr (n : Nat) : String := String.mk (natToDigitsAux (n + 1) n [])

/-- The two fractional digits of `f"{v:.2f}"`, for `n < 100`. -/
def pad2 (n : Nat) : String := String.mk [Nat.digitChar (n / 10 % 10), Nat.digitChar (n % 10)]

/-- Python `f"{q:.2f}"`: fixed-point rendering with exactly two fractional
digits. -/
def formatFixed2 (q : PyNum) : String :=
  let m := roundHalfEven (q.mul 100)
  let k := m.natAbs
  let digits := natRepr (k / 100) ++ "." ++ pad2 (k % 100)
  if q.num < 0 then "-" ++ digits else digits

/-- `format_percentage` from src/main.py lines 23-27: `f"{value:.2f}%"`. -/
def format_percentage (value : PyNum) : String := formatFixed2 value ++ "%"

/-- `format_currency` from src/main.py lines 29-33: `f"{value:.2f}"`. -/
def format_currency (value : PyNum) : String := formatFixed2 value

/-! ## Raw upstream data -/

/-- The value of a fallible computation: either the result or the text of the
raised exception (what `asyncio.gather(..., return_exceptions=True)` stores,
and what `str(e)` yields at the handler). -/
inductive FetchResult (α : Type) where
  | ok (val : α)
  | exn (msg : String)
deriving DecidableEq, Repr

/-- One entry of the campaign-list response's `data` array: a JSON object in
which the `"id"` and `"name"` keys may each be absent. -/
structure RawCampaign where
  id : Option String
  name : Option String
deriving DecidableEq, Repr

/-- One entry of an insights response's `data` array.  Each metric field is:
absent (`none`), present but not parseable as a number (`some none`), or
present with the parsed numeric value (`some (some v)`). -/
structure RawInsightItem where
  impressions : Option (Option PyNum)
  clicks : Option (Option PyNum)
  cpc : Option (Option PyNum)
deriving DecidableEq, Repr

/-- A decoded insights response body: the `"data"` key may be absent, or hold
a (possibly empty) array of entries. -/
structure InsightResponse where
  data : Option (List RawInsightItem)
deriving DecidableEq, Repr

/-- A decoded campaign-list response body: the `"data"` key may be absent, or
hold the array of campaign objects. -/
structure ListBody where
  data : Option (List RawCampaign)
deriving DecidableEq, Repr

/-- The outcome of one outbound detail (insights) request: a transport or
timeout error raised by the client, or an HTTP response with its status, raw
body text, and the result of JSON-decoding that body. -/
inductive DetailOutcome where
  | transportError (msg : String)
  | httpResponse (status : Nat) (body : String) (decoded : FetchResult InsightResponse)
deriving DecidableEq, Repr

/-- The outcome of the outbound campaign-list request. -/
inductive ListFetchOutcome where
  | transportError (msg : String)
  | httpResponse (status : Nat) (body : String) (decoded : FetchResult ListBody)
deriving DecidableEq, Repr

/-- `fetch_campaign_insights` (src/main.py lines 35-74) as a function of the
outbound exchange: a transport error propagates as an exception; a non-200
status raises `Erro {status}: {body}`; otherwise the decoded JSON (or the
decode failure) is the result. -/
def fetch_campaign_insights : DetailOutcome → FetchResult InsightResponse
  | .transportError msg => .exn msg
  | .httpResponse status body decoded =>
    if status ≠ 200 then .exn ("Erro " ++ toString status ++ ": " ++ body)
    else decoded

/-- The campaign-list request of `fetch_paused_campaigns` (src/main.py lines
97-119): same failure shape as the detail fetch. -/
def list_fetch : ListFetchOutcome → FetchResult ListBody
  | .transportError msg => .exn msg
  | .httpResponse status body decoded =>
    if status ≠ 200 then .exn ("Erro " ++ toString status ++ ": " ++ body)
    else decoded

/-! ## The gather join -/

/-- A list tagged with indices `i, i+1, …` (helper for `indexedList`). -/
def indexedFrom {α : Type} : Nat → List α → List (Nat × α)
  | _, [] => []
  | i, a :: rest => (i, a) :: indexedFrom (i + 1) rest

/-- A list tagged with its positions `0, 1, …`: the canonical task order of the
scheduled detail fetches. -/
def indexedList {α : Type} (l : List α) : List (Nat × α) := indexedFrom 0 l

/-- The `asyncio.gather(*tasks, return_exceptions=True)` join (src/main.py
line 131): the runtime delivers the `n` task outcomes in some arrival order,
each tagged with its originating task index, and `gather` places outcome `i`
at position `i` of its result list regardless of arrival order. -/
def gatherInsights (n : Nat) (arrivals : List (Nat × DetailOutcome)) :
    List (FetchResult InsightResponse) :=
  (List.range n).map fun i =>
    match arrivals.find? (fun p => p.1 == i) with
    | some p => fetch_campaign_insights p.2
    | none => .exn "missing result"

/-! ## Building reports and merging -/

/-- The report object for one campaign (the dict built at src/main.py lines
136-143; its Python key for the campaign name is `"nome_da_campanha"`). -/
structure CampaignReport where
  id : String
  nome_da_campanha : String
  cpc : String
  impressions : Int
  clicks : Int
  ctr : String
deriving DecidableEq, Repr

/-- `float(item.get(field, 0))` wrapped in try/except (src/main.py lines
151-168): an absent field defaults to `0`, an unparseable field is caught and
replaced by `0.0`, and a parseable field yields its value. -/
def parseField : Option (Option PyNum) → PyNum
  | none => 0
  | some none => 0
  | some (some v) => v

/-- The initial `campaign_obj` (src/main.py lines 136-143): id and name read
tolerantly with `.get(..., "")`, metrics zeroed. -/
def zeroReport (camp : RawCampaign) : CampaignReport :=
  { id := camp.id.getD ""
    nome_da_campanha := camp.name.getD ""
    cpc := "0.00"
    impressions := 0
    clicks := 0
    ctr := "0.00%" }

/-- The per-campaign body of the merge loop (src/main.py lines 144-180): an
exceptional insight, or a missing/empty `data` array, leaves the zero-default
object; otherwise the first entry's fields are parsed fault-tolerantly, the
click-through rate is recomputed, and the metric fields are overwritten. -/
def buildReport (camp : RawCampaign) (insight : FetchResult InsightResponse) : CampaignReport :=
  match insight with
  | .exn _ => zeroReport camp
  | .ok ins =>
    match ins.data with
    | some (item :: _) =>
      let impressions := parseField item.impressions
      let clicks := parseField item.clicks
      let cpc := parseField item.cpc
      let ctr_value := if impressions.pos then (clicks.div impressions).mul 100 else 0
      { zeroReport camp with
        impressions := impressions.pyInt
        clicks := clicks.pyInt
        ctr := format_percentage ctr_value
        cpc := format_currency cpc }
    | _ => zeroReport camp

/-- The merge loop of src/main.py lines 134-180: for each campaign at index
`idx` of the list, build its report from `insights_results[idx]`. -/
def mergeReports (camps : List RawCampaign)
    (insights : List (FetchResult InsightResponse)) : List CampaignReport :=
  (indexedList camps).map fun p => buildReport p.2 (insights.getD p.1 (.exn "IndexError"))

/-! ## The aggregator -/

/-- The outbound world one request runs against: the outcome of the one
campaign-list request, and the arrival-ordered, index-tagged outcomes of the
concurrent detail fetches. -/
structure Env where
  listOutcome : ListFetchOutcome
  arrivals : List (Nat × DetailOutcome)
deriving DecidableEq, Repr

/-- Instrumentation: how many outbound list and detail requests were actually
performed. -/
structure CallTrace where
  listCalls : Nat
  detailCalls : Nat
deriving DecidableEq, Repr

/-- `str(KeyError('id'))`: the message of the exception raised by
`camp["id"]` at src/main.py line 128 when a list entry lacks the key. -/
def keyErrorId : String := "'id'"

/-- `fetch_paused_campaigns` (src/main.py lines 76-183).  The list request is
always performed.  On its failure the exception propagates and no detail fetch
is attempted.  Otherwise the scheduling loop (lines 126-128) evaluates
`camp["id"]` for every entry — a missing id raises `KeyError('id')` before the
gather runs, so again no detail fetch is performed.  Otherwise all
`campaigns_list` detail fetches run concurrently and the merge loop produces
one report per campaign, positionally. -/
def fetch_paused_campaigns (env : Env) : FetchResult (List CampaignReport) × CallTrace :=
  match list_fetch env.listOutcome with
  | .exn msg => (.exn msg, ⟨1, 0⟩)
  | .ok body =>
    let campaigns_list := body.data.getD []
    if campaigns_list.all (fun c => c.id.isSome) then
      let insights := gatherInsights campaigns_list.length env.arrivals
      (.ok (mergeReports campaigns_list insights), ⟨1, campaigns_list.length⟩)
    else
      (.exn keyErrorId, ⟨1, 0⟩)

/-! ## The request handler -/

/-- A JSON value as decoded from the request body (the handler receives an
arbitrary JSON object). -/
inductive JsonValue where
  | null
  | bool (b : Bool)
  | num (v : PyNum)
  | str (s : String)
  | arr (elems : List JsonValue)
  | obj (fields : List (String × JsonValue))

/-- Python truthiness of a decoded JSON value (`not x` in the source). -/
def JsonValue.truthy : JsonValue → Bool
  | .null => false
  | .bool b => b
  | .num v => v.num != 0
  | .str s => s != ""
  | .arr elems => !elems.isEmpty
  | .obj fields => !fields.isEmpty

/-- The request body as seen by the handler: `payload.get("account_id")` and
`payload.get("access_token")`, each possibly absent. -/
structure Payload where
  account_id : Option JsonValue
  access_token : Option JsonValue

/-- `not payload.get(key)`: absent keys give `None` (falsy); present values
use Python truthiness. -/
def fieldTruthy : Option JsonValue → Bool
  | none => false
  | some v => v.truthy

/-- Whether Python `v[:10]` succeeds on a decoded JSON value: only strings
and lists support slicing; numbers, booleans, null and objects raise
`TypeError`. -/
def JsonValue.sliceable : JsonValue → Bool
  | .str _ => true
  | .arr _ => true
  | _ => false

/-- Whether the debug f-string at src/main.py line 201 can evaluate its
eagerly-computed `access_token[:10]` argument without raising. -/
def fieldSliceable : Option JsonValue → Bool
  | none => false
  | some v => v.sliceable

/-- The handler's response: a 200 success body
`{paused_campaigns_total, paused_campaigns}`, an `HTTPException` with a
status code and a `detail` string, or the framework's generic
`500 Internal Server Error` produced when an exception escapes the handler
body (no `detail` field). -/
inductive HandlerResponse where
  | success (paused_campaigns_total : Nat) (paused_campaigns : List CampaignReport)
  | httpError (status : Nat) (detail : String)
  | uncaughtError
deriving DecidableEq, Repr

/-- The HTTP status of a handler response. -/
def HandlerResponse.statusCode : HandlerResponse → Nat
  | .success _ _ => 200
  | .httpError s _ => s
  | .uncaughtError => 500

/-- The 400 detail message at src/main.py line 199. -/
def validationDetail : String :=
  "É necessário fornecer 'account_id' e 'access_token' no corpo da requisição."

/-- `get_paused_campaigns` (src/main.py lines 185-215): truthiness validation
of the two payload fields; then the debug log at line 201 eagerly evaluates
`access_token[:10]` outside the try block — for a truthy but non-sliceable
token this raises `TypeError`, which escapes the handler and becomes the
framework's generic 500 before any outbound call; otherwise the aggregator
runs inside the try and any exception it raises becomes an
`HTTPException(500, str(e))`. -/
def get_paused_campaigns (payload : Payload) (env : Env) : HandlerResponse × CallTrace :=
  if !fieldTruthy payload.account_id || !fieldTruthy payload.access_token then
    (.httpError 400 validationDetail, ⟨0, 0⟩)
  else if !fieldSliceable payload.access_token then
    (.uncaughtError, ⟨0, 0⟩)
  else
    match fetch_paused_campaigns env with
    | (.ok campaigns, t) => (.success campaigns.length campaigns, t)
    | (.exn msg, t) => (.httpError 500 msg, t)

/-! ## The JSON shape of a report -/

/-- A value of the serialised report object. -/
inductive RespValue where
  | str (s : String)
  | int (n : Int)
deriving DecidableEq, Repr

/-- The report dict exactly as literally constructed at src/main.py lines
136-143: its keys, in order, are `id`, `nome_da_campanha`, `cpc`,
`impressions`, `clicks`, `ctr`. -/
def reportDict (r : CampaignReport) : List (String × RespValue) :=
  [("id", .str r.id),
   ("nome_da_campanha", .str r.nome_da_campanha),
   ("cpc", .str r.cpc),
   ("impressions", .int r.impressions),
   ("clicks", .int r.clicks),
   ("ctr", .str r.ctr)]

/-- The numeric value whose `.2f` rendering ends up in a report's `cpc` field:
the parsed `cpc` of the first data entry when the detail fetch succeeded with
data, and `0` otherwise (the zero-default `"0.00"`). -/
def cpcSource : FetchResult InsightResponse → PyNum
  | .ok resp =>
    match resp.data with
    | some (item :: _) => parseField item.cpc
    | _ => 0
  | .exn _ => 0

/-! ## Concrete scenario inputs (used to instantiate the theorems) -/

/-- List entry `{id:"1", name:"A"}`. -/
def campW1 : RawCampaign := ⟨some "1", some "A"⟩

/-- List entry `{id:"2", name:"B"}`. -/
def campW2 : RawCampaign := ⟨some "2", some "B"⟩

/-- Insights entry `{impressions:"100", clicks:"5", cpc:"2.0"}`. -/
def itemW : RawInsightItem := ⟨some (some ⟨100, 1⟩), some (some ⟨5, 1⟩), some (some ⟨2, 1⟩)⟩

/-- A successful detail exchange carrying `itemW`. -/
def detailOkW : DetailOutcome := .httpResponse 200 "ok-body" (.ok ⟨some [itemW]⟩)

/-- A detail exchange answered with HTTP 500. -/
def detailFailW : DetailOutcome := .httpResponse 500 "Internal Server Error" (.ok ⟨some []⟩)

/-- Detail outcomes for the two scheduled fetches, in task order. -/
def outcomesW : List DetailOutcome := [detailOkW, detailFailW]

/-- A world where the list fetch returns campaigns `campW1, campW2` and the
two detail fetches complete in reversed order. -/
def envW : Env :=
  ⟨.httpResponse 200 "list-body" (.ok ⟨some [campW1, campW2]⟩), (indexedList outcomesW).reverse⟩

/-- A well-formed request body. -/
def payloadW : Payload := ⟨some (.str "123"), some (.str "token")⟩

/-- A world where the list fetch returns an empty campaign list. -/
def envEmptyListW : Env := ⟨.httpResponse 200 "list-body" (.ok ⟨some []⟩), []⟩

/-- A request body whose `account_id` is the JSON number `5`: present and
truthy, but not a string. -/
def payloadNumW : Payload := ⟨some (.num ⟨5, 1⟩), some (.str "tok")⟩

/-- Gathered detail results in task order: a success with one data entry for
the first campaign, an exception for the second. -/
def insightsW : List (FetchResult InsightResponse) := [.ok ⟨some [itemW]⟩, .exn "boom"]

/-- Insights entry whose `impressions` is present but unparseable, whose
`clicks` parses to `7`, and whose `cpc` is absent. -/
def itemBadW : RawInsightItem := ⟨some none, some (some ⟨7, 1⟩), none⟩

/-! ## Correctness of the exact-rational operations with respect to `ℚ` -/

theorem PyNum.toRat_mul (a b : PyNum) : (a.mul b).toRat = a.toRat * b.toRat := by
  unfold toRat mul
  push_cast
  rw [div_mul_div_comm]

theorem PyNum.toRat_inv (a : PyNum) : a.inv.toRat = a.toRat⁻¹ := by
  rcases le_or_lt 0 a.num with h | h
  · have hinv : a.inv = ⟨(a.den : Int), a.num.natAbs⟩ := by unfold inv; rw [if_pos h]
    have habs : ((a.num.natAbs : Nat) : ℚ) = ((a.num : Int) : ℚ) := by
      rw [Int.cast_natAbs, abs_of_nonneg h]
    rw [hinv]
    unfold toRat
    rw [inv_div]
    simp [habs]
  · have hinv : a.inv = ⟨-(a.den : Int), a.num.natAbs⟩ := by
      unfold inv; rw [if_neg (not_le.mpr h)]
    have habs : ((a.num.natAbs : Nat) : ℚ) = -((a.num : Int) : ℚ) := by
      rw [Int.cast_natAbs, abs_of_neg h, Int.cast_neg]
    rw [hinv]
    unfold toRat
    rw [inv_div]
    simp only [habs]
    push_cast
    rw [neg_div_neg_eq]

theorem PyNum.toRat_div (a b : PyNum) : (a.div b).toRat = a.toRat / b.toRat := by
  unfold div
  rw [toRat_mul, toRat_inv, div_eq_mul_inv]

theorem PyNum.toRat_ofNat (n : Nat) : (OfNat.ofNat n : PyNum).toRat = (n : ℚ) := by
  unfold toRat
  show ((n : Int) : ℚ) / ((1 : Nat) : ℚ) = (n : ℚ)
  push_cast
  rw [div_one]

/-! ## Shape of the `.2f` rendering -/

theorem digitChar_isDigit {n : Nat} (h : n < 10) : (Nat.digitChar n).isDigit = true := by
  interval_cases n <;> decide

theorem natToDigitsAux_digits (fuel : Nat) :
    ∀ (n : Nat) (acc : List Char), (∀ ch ∈ acc, ch.isDigit = true) →
      ∀ ch ∈ natToDigitsAux fuel n acc, ch.isDigit = true := by
  induction fuel with
  | zero => intro n acc hacc ch hch; exact hacc ch hch
  | succ f ih =>
    intro n acc hacc ch hch
    unfold natToDigitsAux at hch
    by_cases h : n < 10
    · rw [if_pos h] at hch
      rcases List.mem_cons.mp hch with h1 | h1
      · subst h1; exact digitChar_isDigit h
      · exact hacc ch h1
    · rw [if_neg h] at hch
      refine ih (n / 10) _ ?_ ch hch
      intro c hc
      rcases List.mem_cons.mp hc with h1 | h1
      · subst h1; exact digitChar_isDigit (Nat.mod_lt _ (by omega))
      · exact hacc c h1

theorem natRepr_digits (n : Nat) : ∀ ch ∈ (natRepr n).data, ch.isDigit = true := by
  intro ch hch
  exact natToDigitsAux_digits (n + 1) n [] (by simp) ch hch

theorem pad2_length (n : Nat) : (pad2 n).length = 2 := rfl

theorem pad2_digits (n : Nat) : ∀ ch ∈ (pad2 n).data, ch.isDigit = true := by
  intro ch hch
  rcases List.mem_cons.mp hch with h1 | h1
  · subst h1; exact digitChar_isDigit (Nat.mod_lt _ (by omega))
  · rcases List.mem_cons.mp h1 with h2 | h2
    · subst h2; exact digitChar_isDigit (Nat.mod_lt _ (by omega))
    · cases h2

theorem formatFixed2_shape (q : PyNum) :
    ∃ ip fp, formatFixed2 q = ip ++ "." ++ fp ∧ fp.length = 2 ∧
      (∀ ch ∈ fp.data, ch.isDigit = true) ∧
      (∀ ch ∈ ip.data, ch.isDigit = true ∨ ch = '-') := by
  unfold formatFixed2
  by_cases h : q.num < 0
  · rw [if_pos h]
    refine ⟨"-" ++ natRepr ((roundHalfEven (q.mul 100)).natAbs / 100),
      pad2 ((roundHalfEven (q.mul 100)).natAbs % 100), ?_, pad2_length _, pad2_digits _, ?_⟩
    · simp [String.append_assoc]
    · intro ch hch
      rw [String.data_append] at hch
      rcases List.mem_append.mp hch with h1 | h1
      · right
        rcases List.mem_cons.mp h1 with h2 | h2
        · exact h2
        · cases h2
      · exact Or.inl (natRepr_digits _ ch h1)
  · rw [if_neg h]
    exact ⟨natRepr ((roundHalfEven (q.mul 100)).natAbs / 100),
      pad2 ((roundHalfEven (q.mul 100)).natAbs % 100), rfl, pad2_length _, pad2_digits _,
      fun ch hch => Or.inl (natRepr_digits _ ch hch)⟩

theorem formatFixed2_chars (q : PyNum) :
    ∀ ch ∈ (formatFixed2 q).data, ch.isDigit = true ∨ ch = '.' ∨ ch = '-' := by
  obtain ⟨ip, fp, heq, _, hfp, hip⟩ := formatFixed2_shape q
  intro ch hch
  rw [heq, String.data_append, String.data_append] at hch
  rcases List.mem_append.mp hch with h1 | h1
  · rcases List.mem_append.mp h1 with h2 | h2
    · rcases hip ch h2 with h3 | h3
      · exact Or.inl h3
      · exact Or.inr (Or.inr h3)
    · rcases List.mem_cons.mp h2 with h3 | h3
      · exact Or.inr (Or.inl h3)
      · cases h3
  · exact Or.inl (hfp ch h1)

/-! ## Index bookkeeping of the gather join -/

theorem indexedFrom_length {α : Type} (i : Nat) (l : List α) :
    (indexedFrom i l).length = l.length := by
  induction l generalizing i with
  | nil => rfl
  | cons a rest ih => simp [indexedFrom, ih]

theorem indexedFrom_getElem? {α : Type} (i : Nat) (l : List α) (j : Nat) :
    (indexedFrom i l)[j]? = l[j]?.map fun a => (i + j, a) := by
  induction l generalizing i j with
  | nil => simp [indexedFrom]
  | cons a rest ih =>
    cases j with
    | zero => simp [indexedFrom]
    | succ j' =>
      have harith : i + 1 + j' = i + (j' + 1) := by omega
      simp only [indexedFrom, List.getElem?_cons_succ, ih (i + 1) j', harith]

theorem mem_indexedFrom {α : Type} {q : Nat × α} {i : Nat} {l : List α} :
    q ∈ indexedFrom i l ↔ ∃ k, l[k]? = some q.2 ∧ q.1 = i + k := by
  rw [List.mem_iff_getElem?]
  constructor
  · rintro ⟨n, hn⟩
    rw [indexedFrom_getElem? i l n] at hn
    cases hl : l[n]? with
    | none => rw [hl] at hn; cases hn
    | some a =>
      rw [hl] at hn
      simp only [Option.map_some', Option.some.injEq] at hn
      refine ⟨n, ?_, ?_⟩
      · rw [hl, ← hn]
      · rw [← hn]
  · rintro ⟨k, hk, hq⟩
    refine ⟨k, ?_⟩
    rw [indexedFrom_getElem? i l k, hk]
    simp only [Option.map_some', Option.some.injEq]
    apply Prod.ext
    · exact hq.symm
    · rfl

theorem find?_eq_some_of_unique {α : Type} {p : α → Bool} {l : List α} {a : α}
    (ha : a ∈ l) (hpa : p a = true)
    (huniq : ∀ b ∈ l, p b = true → b = a) :
    l.find? p = some a := by
  induction l with
  | nil => cases ha
  | cons x xs ih =>
    by_cases hx : p x = true
    · rw [List.find?_cons_of_pos _ hx]
      rw [huniq x (List.mem_cons_self x xs) hx]
    · rw [List.find?_cons_of_neg _ (by simpa using hx)]
      have hax : a ∈ xs := by
        rcases List.mem_cons.mp ha with h1 | h1
        · subst h1; exact absurd hpa hx
        · exact h1
      exact ih hax fun b hb hpb => huniq b (List.mem_cons_of_mem _ hb) hpb

/-- The gather join is arrival-order independent: for any arrival order of the
`n` tagged outcomes, the reconstructed result list is the task-order list of
per-task fetch results. -/
theorem gatherInsights_perm (outcomes : List DetailOutcome)
    (arrivals : List (Nat × DetailOutcome))
    (h : List.Perm arrivals (indexedList outcomes)) :
    gatherInsights outcomes.length arrivals = outcomes.map fetch_campaign_insights := by
  apply List.ext_getElem?
  intro j
  unfold gatherInsights
  rw [List.getElem?_map, List.getElem?_map]
  by_cases hj : j < outcomes.length
  · rw [List.getElem?_range hj]
    have hget : outcomes[j]? = some (outcomes.get ⟨j, hj⟩) := List.getElem?_eq_getElem hj
    rw [hget]
    have hfind : arrivals.find? (fun p => p.1 == j) = some (j, outcomes.get ⟨j, hj⟩) := by
      apply find?_eq_some_of_unique
      · rw [h.mem_iff]
        exact mem_indexedFrom.mpr ⟨j, hget, (Nat.zero_add j).symm⟩
      · simp
      · rintro ⟨b1, b2⟩ hb hpb
        obtain ⟨k, hk, hbk⟩ := mem_indexedFrom.mp (h.mem_iff.mp hb)
        simp only [beq_iff_eq] at hpb
        simp only [Nat.zero_add] at hbk
        subst hpb
        subst hbk
        rw [hget] at hk
        simp only [Option.some.injEq] at hk
        rw [hk]
    simp only [hfind, Option.map_some']
  · have h1 : (List.range outcomes.length)[j]? = none :=
      List.getElem?_eq_none (by simpa using Nat.not_lt.mp hj)
    have h2 : outcomes[j]? = none := List.getElem?_eq_none (Nat.not_lt.mp hj)
    rw [h1, h2]
    rfl

/-! ## Properties of report construction and the merge -/

theorem buildReport_id (camp : RawCampaign) (insight : FetchResult InsightResponse) :
    (buildReport camp insight).id = camp.id.getD "" := by
  cases insight with
  | exn m => rfl
  | ok ins =>
    obtain ⟨d⟩ := ins
    cases d with
    | none => rfl
    | some items =>
      cases items with
      | nil => rfl
      | cons item rest => rfl

theorem buildReport_nome (camp : RawCampaign) (insight : FetchResult InsightResponse) :
    (buildReport camp insight).nome_da_campanha = camp.name.getD "" := by
  cases insight with
  | exn m => rfl
  | ok ins =>
    obtain ⟨d⟩ := ins
    cases d with
    | none => rfl
    | some items =>
      cases items with
      | nil => rfl
      | cons item rest => rfl

/-- An exceptional detail result, or one whose decoded body has no data
entries, leaves the zero-default report untouched. -/
theorem buildReport_degraded (camp : RawCampaign) (insight : FetchResult InsightResponse)
    (h : (∃ m, insight = .exn m) ∨
         ∃ resp, insight = .ok resp ∧ (resp.data = none ∨ resp.data = some [])) :
    buildReport camp insight = zeroReport camp := by
  rcases h with ⟨m, rfl⟩ | ⟨resp, rfl, hd⟩
  · rfl
  · obtain ⟨d⟩ := resp
    rcases hd with hd | hd <;> simp only [InsightResponse.mk.injEq] at hd <;> subst hd <;> rfl

/-- A successful detail result with at least one data entry overwrites the
four metric fields with values computed from the first entry. -/
theorem buildReport_metrics (camp : RawCampaign) (item : RawInsightItem)
    (rest : List RawInsightItem) (resp : InsightResponse)
    (hdata : resp.data = some (item :: rest)) :
    buildReport camp (.ok resp) =
      { id := camp.id.getD ""
        nome_da_campanha := camp.name.getD ""
        cpc := format_currency (parseField item.cpc)
        impressions := (parseField item.impressions).pyInt
        clicks := (parseField item.clicks).pyInt
        ctr := format_percentage
          (if (parseField item.impressions).pos
           then ((parseField item.clicks).div (parseField item.impressions)).mul 100
           else 0) } := by
  obtain ⟨d⟩ := resp
  simp only [InsightResponse.mk.injEq] at hdata
  subst hdata
  rfl

theorem mergeReports_length (camps : List RawCampaign)
    (insights : List (FetchResult InsightResponse)) :
    (mergeReports camps insights).length = camps.length := by
  unfold mergeReports indexedList
  rw [List.length_map, indexedFrom_length]

theorem mergeReports_getElem? (camps : List RawCampaign)
    (insights : List (FetchResult InsightResponse)) (i : Nat) :
    (mergeReports camps insights)[i]? =
      camps[i]?.map fun c => buildReport c (insights.getD i (.exn "IndexError")) := by
  unfold mergeReports indexedList
  rw [List.getElem?_map, indexedFrom_getElem?]
  cases hc : camps[i]? with
  | none => rfl
  | some c => simp

/-- On a 200 list response whose entries all carry an id, the aggregator
gathers one detail result per campaign and merges positionally. -/
theorem fetch_paused_campaigns_ok (camps : List RawCampaign)
    (arrivals : List (Nat × DetailOutcome)) (bodyText : String)
    (hids : camps.all (fun c => c.id.isSome) = true) :
    fetch_paused_campaigns ⟨.httpResponse 200 bodyText (.ok ⟨some camps⟩), arrivals⟩ =
      (.ok (mergeReports camps (gatherInsights camps.length arrivals)), ⟨1, camps.length⟩) := by
  unfold fetch_paused_campaigns list_fetch
  simp [hids]

theorem buildReport_cpc (camp : RawCampaign) (insight : FetchResult InsightResponse) :
    (buildReport camp insight).cpc = format_currency (cpcSource insight) := by
  cases insight with
  | exn m =>
    show "0.00" = format_currency 0
    decide
  | ok ins =>
    obtain ⟨d⟩ := ins
    cases d with
    | none =>
      show "0.00" = format_currency 0
      decide
    | some items =>
      cases items with
      | nil =>
        show "0.00" = format_currency 0
        decide
      | cons item rest => rfl

/-! ## The claims -/

/-- **C1**: for every list of N campaign summaries returned by the list fetch
and every assignment of outcomes to the N concurrent detail fetches, delivered
in any completion order (`arrivals` is an arbitrary permutation of the
index-tagged task outcomes), `fetch_paused_campaigns` returns exactly N
reports, one per campaign; the merged result equals the task-order merge (so
it is independent of arrival order), and the report at position `i` carries
the id and the name of the campaign at position `i` of the list and is built
from the detail outcome originating at index `i` — the merge is positional by
originating index, never by arrival order. -/
theorem C1_positional_merge (camps : List RawCampaign) (outcomes : List DetailOutcome)
    (arrivals : List (Nat × DetailOutcome)) (bodyText : String)
    (hperm : List.Perm arrivals (indexedList outcomes))
    (hlen : outcomes.length = camps.length)
    (hids : ∀ c ∈ camps, c.id.isSome = true)
    (hnames : ∀ c ∈ camps, c.name.isSome = true) :
    ∃ reports : List CampaignReport,
      fetch_paused_campaigns ⟨.httpResponse 200 bodyText (.ok ⟨some camps⟩), arrivals⟩ =
        (.ok reports, ⟨1, camps.length⟩) ∧
      reports = mergeReports camps (outcomes.map fetch_campaign_insights) ∧
      reports.length = camps.length ∧
      ∀ i c, camps[i]? = some c →
        ∃ r, reports[i]? = some r ∧
          c.id = some r.id ∧ c.name = some r.nome_da_campanha ∧
          r = buildReport c ((outcomes.map fetch_campaign_insights).getD i (.exn "IndexError")) := by
  have hall : camps.all (fun c => c.id.isSome) = true := List.all_eq_true.mpr hids
  have hg : gatherInsights camps.length arrivals = outcomes.map fetch_campaign_insights := by
    rw [← hlen]
    exact gatherInsights_perm outcomes arrivals hperm
  refine ⟨mergeReports camps (outcomes.map fetch_campaign_insights), ?_, rfl,
    mergeReports_length _ _, ?_⟩
  · rw [fetch_paused_campaigns_ok camps arrivals bodyText hall, hg]
  · intro i c hc
    refine ⟨buildReport c ((outcomes.map fetch_campaign_insights).getD i (.exn "IndexError")),
      ?_, ?_, ?_, rfl⟩
    · rw [mergeReports_getElem?, hc]
      rfl
    · obtain ⟨s, hs⟩ := Option.isSome_iff_exists.mp (hids c (List.getElem?_mem hc))
      rw [buildReport_id, hs]
      rfl
    · obtain ⟨s, hs⟩ := Option.isSome_iff_exists.mp (hnames c (List.getElem?_mem hc))
      rw [buildReport_nome, hs]
      rfl

/-- Witness for C1: two campaigns, a success and a failure, with the two
detail outcomes arriving in reversed order. -/
theorem C1_witness :
    List.Perm (indexedList outcomesW).reverse (indexedList outcomesW) ∧
    (∃ reports : List CampaignReport,
      fetch_paused_campaigns envW = (.ok reports, ⟨1, [campW1, campW2].length⟩) ∧
      reports = mergeReports [campW1, campW2] (outcomesW.map fetch_campaign_insights) ∧
      reports.length = [campW1, campW2].length ∧
      ∀ i c, [campW1, campW2][i]? = some c →
        ∃ r, reports[i]? = some r ∧
          c.id = some r.id ∧ c.name = some r.nome_da_campanha ∧
          r = buildReport c ((outcomesW.map fetch_campaign_insights).getD i (.exn "IndexError"))) :=
  ⟨List.reverse_perm _,
   C1_positional_merge [campW1, campW2] outcomesW (indexedList outcomesW).reverse "list-body"
     (List.reverse_perm _) (by decide) (by decide) (by decide)⟩

/-- **C2**: the merge never drops a campaign: it emits one report per list
entry; a campaign whose detail fetch raised, or succeeded without data
entries, gets the zero-default report (id and name populated, `impressions=0`,
`clicks=0`, `ctr="0.00%"`, `cpc="0.00"`), while a sibling whose detail fetch
succeeded with data keeps its computed metrics. -/
theorem C2_zero_default_on_failure (camps : List RawCampaign)
    (insights : List (FetchResult InsightResponse)) :
    (mergeReports camps insights).length = camps.length ∧
    ∀ (i : Nat) (c : RawCampaign) (ins : FetchResult InsightResponse),
      camps[i]? = some c → insights[i]? = some ins →
      ((∀ m, ins = .exn m →
          (mergeReports camps insights)[i]? =
            some { id := c.id.getD "", nome_da_campanha := c.name.getD "",
                   cpc := "0.00", impressions := 0, clicks := 0, ctr := "0.00%" }) ∧
       (∀ resp, ins = .ok resp → resp.data = none ∨ resp.data = some [] →
          (mergeReports camps insights)[i]? =
            some { id := c.id.getD "", nome_da_campanha := c.name.getD "",
                   cpc := "0.00", impressions := 0, clicks := 0, ctr := "0.00%" }) ∧
       (∀ resp item rest, ins = .ok resp → resp.data = some (item :: rest) →
          ∃ r, (mergeReports camps insights)[i]? = some r ∧
            r.id = c.id.getD "" ∧ r.nome_da_campanha = c.name.getD "" ∧
            r.impressions = (parseField item.impressions).pyInt ∧
            r.clicks = (parseField item.clicks).pyInt ∧
            r.ctr = format_percentage
              (if (parseField item.impressions).pos
               then ((parseField item.clicks).div (parseField item.impressions)).mul 100
               else 0) ∧
            r.cpc = format_currency (parseField item.cpc))) := by
  refine ⟨mergeReports_length _ _, ?_⟩
  intro i c ins hc hins
  have hgetD : insights.getD i (.exn "IndexError") = ins := by
    rw [List.getD_eq_getElem?_getD, hins]
    rfl
  have hmerge : (mergeReports camps insights)[i]? = some (buildReport c ins) := by
    rw [mergeReports_getElem?, hc, hgetD]
    rfl
  refine ⟨?_, ?_, ?_⟩
  · rintro m rfl
    rw [hmerge, buildReport_degraded c _ (Or.inl ⟨m, rfl⟩)]
    rfl
  · rintro resp rfl hd
    rw [hmerge, buildReport_degraded c _ (Or.inr ⟨resp, rfl, hd⟩)]
    rfl
  · rintro resp item rest rfl hdata
    have hb := buildReport_metrics c item rest resp hdata
    exact ⟨buildReport c (.ok resp), hmerge, by rw [hb], by rw [hb], by rw [hb], by rw [hb],
      by rw [hb], by rw [hb]⟩

/-- Witness for C2: campaign 2's detail fetch raised while campaign 1's
succeeded with data; campaign 2 gets the zero-default report and campaign 1
keeps its real metrics. -/
theorem C2_witness :
    ([campW1, campW2][1]? = some campW2 ∧ insightsW[1]? = some (.exn "boom") ∧
     [campW1, campW2][0]? = some campW1 ∧ insightsW[0]? = some (.ok ⟨some [itemW]⟩)) ∧
    (mergeReports [campW1, campW2] insightsW)[1]? =
      some { id := campW2.id.getD "", nome_da_campanha := campW2.name.getD "",
             cpc := "0.00", impressions := 0, clicks := 0, ctr := "0.00%" } ∧
    (∃ r, (mergeReports [campW1, campW2] insightsW)[0]? = some r ∧
      r.id = campW1.id.getD "" ∧ r.nome_da_campanha = campW1.name.getD "" ∧
      r.impressions = (parseField itemW.impressions).pyInt ∧
      r.clicks = (parseField itemW.clicks).pyInt ∧
      r.ctr = format_percentage
        (if (parseField itemW.impressions).pos
         then ((parseField itemW.clicks).div (parseField itemW.impressions)).mul 100
         else 0) ∧
      r.cpc = format_currency (parseField itemW.cpc)) :=
  ⟨⟨by decide, by decide, by decide, by decide⟩,
   ((C2_zero_default_on_failure [campW1, campW2] insightsW).2 1 campW2 (.exn "boom")
      (by decide) (by decide)).1 "boom" rfl,
   ((C2_zero_default_on_failure [campW1, campW2] insightsW).2 0 campW1 (.ok ⟨some [itemW]⟩)
      (by decide) (by decide)).2.2 ⟨some [itemW]⟩ itemW [] rfl rfl⟩

/-- **C3**: whenever the handler answers with the success body, its
`paused_campaigns_total` field equals the length of its `paused_campaigns`
sequence. -/
theorem C3_total_equals_length (payload : Payload) (env : Env) (total : Nat)
    (reports : List CampaignReport) (t : CallTrace)
    (h : get_paused_campaigns payload env = (.success total reports, t)) :
    total = reports.length := by
  unfold get_paused_campaigns at h
  split at h
  · simp at h
  · split at h
    · simp at h
    · split at h
      · simp only [Prod.mk.injEq, HandlerResponse.success.injEq] at h
        obtain ⟨⟨h1, h2⟩, _⟩ := h
        subst h2
        rw [← h1]
      · simp at h

/-- Witness for C3: a successful end-to-end run with two campaigns reports
`paused_campaigns_total = 2` and two reports. -/
theorem C3_witness :
    get_paused_campaigns payloadW envW =
      (.success 2 [⟨"1", "A", "2.00", 100, 5, "5.00%"⟩, ⟨"2", "B", "0.00", 0, 0, "0.00%"⟩],
       ⟨1, 2⟩) ∧
    (2 : Nat) = [(⟨"1", "A", "2.00", 100, 5, "5.00%"⟩ : CampaignReport),
                 ⟨"2", "B", "0.00", 0, 0, "0.00%"⟩].length :=
  ⟨by decide,
   C3_total_equals_length payloadW envW 2
     [⟨"1", "A", "2.00", 100, 5, "5.00%"⟩, ⟨"2", "B", "0.00", 0, 0, "0.00%"⟩] ⟨1, 2⟩
     (by decide)⟩

/-- **C4**: for a report built from a detail response with at least one data
entry, the `ctr` field is the `.2f` rendering, suffixed with `%`, of
`clicks / impressions * 100` when the parsed impressions are positive, and of
`0` otherwise; the computed value really is the rational
`clicks / impressions * 100`; the rendered string has exactly two fractional
digits before the `%`; and in particular impressions `200` with clicks `10`
gives `"5.00%"` and impressions `0` with clicks `0` gives `"0.00%"`. -/
theorem C4_ctr_rule (camp : RawCampaign) (resp : InsightResponse)
    (item : RawInsightItem) (rest : List RawInsightItem)
    (hdata : resp.data = some (item :: rest)) :
    (buildReport camp (.ok resp)).ctr =
      format_percentage
        (if (parseField item.impressions).pos
         then ((parseField item.clicks).div (parseField item.impressions)).mul 100
         else 0) ∧
    ((parseField item.impressions).pos = true →
      (((parseField item.clicks).div (parseField item.impressions)).mul 100).toRat =
        (parseField item.clicks).toRat / (parseField item.impressions).toRat * 100) ∧
    ((parseField item.impressions).pos = false →
      (if (parseField item.impressions).pos
       then ((parseField item.clicks).div (parseField item.impressions)).mul 100
       else 0) = 0) ∧
    (∃ ip fp, (buildReport camp (.ok resp)).ctr = ip ++ "." ++ fp ++ "%" ∧
      fp.length = 2 ∧ ∀ ch ∈ fp.data, ch.isDigit = true) ∧
    (∀ c2 : RawCampaign,
      (buildReport c2 (.ok ⟨some [⟨some (some ⟨200, 1⟩), some (some ⟨10, 1⟩), none⟩]⟩)).ctr
        = "5.00%" ∧
      (buildReport c2 (.ok ⟨some [⟨some (some 0), some (some 0), none⟩]⟩)).ctr = "0.00%") := by
  have hb := buildReport_metrics camp item rest resp hdata
  refine ⟨by rw [hb], ?_, ?_, ?_, ?_⟩
  · intro hpos
    rw [PyNum.toRat_mul, PyNum.toRat_div, PyNum.toRat_ofNat]
    norm_num
  · intro hneg
    simp [hneg]
  · obtain ⟨ip, fp, heq, hlen2, hdig, _⟩ := formatFixed2_shape
      (if (parseField item.impressions).pos
       then ((parseField item.clicks).div (parseField item.impressions)).mul 100
       else 0)
    refine ⟨ip, fp, ?_, hlen2, hdig⟩
    rw [hb]
    show format_percentage _ = _
    unfold format_percentage
    rw [heq]
  · intro c2
    exact ⟨rfl, rfl⟩

/-- Witness for C4: the concrete entry `itemW` (impressions 100, clicks 5). -/
theorem C4_witness :
    (⟨some [itemW]⟩ : InsightResponse).data = some (itemW :: []) ∧
    ((buildReport campW1 (.ok ⟨some [itemW]⟩)).ctr =
      format_percentage
        (if (parseField itemW.impressions).pos
         then ((parseField itemW.clicks).div (parseField itemW.impressions)).mul 100
         else 0) ∧
    ((parseField itemW.impressions).pos = true →
      (((parseField itemW.clicks).div (parseField itemW.impressions)).mul 100).toRat =
        (parseField itemW.clicks).toRat / (parseField itemW.impressions).toRat * 100) ∧
    ((parseField itemW.impressions).pos = false →
      (if (parseField itemW.impressions).pos
       then ((parseField itemW.clicks).div (parseField itemW.impressions)).mul 100
       else 0) = 0) ∧
    (∃ ip fp, (buildReport campW1 (.ok ⟨some [itemW]⟩)).ctr = ip ++ "." ++ fp ++ "%" ∧
      fp.length = 2 ∧ ∀ ch ∈ fp.data, ch.isDigit = true) ∧
    (∀ c2 : RawCampaign,
      (buildReport c2 (.ok ⟨some [⟨some (some ⟨200, 1⟩), some (some ⟨10, 1⟩), none⟩]⟩)).ctr
        = "5.00%" ∧
      (buildReport c2 (.ok ⟨some [⟨some (some 0), some (some 0), none⟩]⟩)).ctr = "0.00%")) :=
  ⟨rfl, C4_ctr_rule campW1 ⟨some [itemW]⟩ itemW [] rfl⟩

/-- **C5**: numeric parsing is fault-tolerant per field: a field that is
absent or unparseable is `0` for that field alone, the other fields keep
their parsed values, and the detail result is still treated as a success (the
metric fields are computed and overwritten, not zero-defaulted wholesale). -/
theorem C5_field_fault_tolerance (camp : RawCampaign) (resp : InsightResponse)
    (item : RawInsightItem) (rest : List RawInsightItem)
    (hdata : resp.data = some (item :: rest)) :
    ((item.impressions = none ∨ item.impressions = some none) →
       (buildReport camp (.ok resp)).impressions = 0) ∧
    ((item.clicks = none ∨ item.clicks = some none) →
       (buildReport camp (.ok resp)).clicks = 0) ∧
    ((item.cpc = none ∨ item.cpc = some none) →
       (buildReport camp (.ok resp)).cpc = format_currency 0) ∧
    (buildReport camp (.ok resp)).impressions = (parseField item.impressions).pyInt ∧
    (buildReport camp (.ok resp)).clicks = (parseField item.clicks).pyInt ∧
    (buildReport camp (.ok resp)).cpc = format_currency (parseField item.cpc) ∧
    (∀ v : PyNum, parseField (some (some v)) = v) ∧
    parseField none = 0 ∧ parseField (some none) = 0 := by
  have hb := buildReport_metrics camp item rest resp hdata
  refine ⟨?_, ?_, ?_, by rw [hb], by rw [hb], by rw [hb], fun v => rfl, rfl, rfl⟩
  · rintro (h | h) <;> rw [hb, h] <;> rfl
  · rintro (h | h) <;> rw [hb, h] <;> rfl
  · rintro (h | h) <;> rw [hb, h] <;> rfl

/-- Witness for C5: `itemBadW` has unparseable impressions, clicks 7, and no
cpc; impressions and cpc degrade to zero individually while clicks survives. -/
theorem C5_witness :
    (⟨some [itemBadW]⟩ : InsightResponse).data = some (itemBadW :: []) ∧
    itemBadW.impressions = some none ∧ itemBadW.cpc = none ∧
    ((buildReport campW1 (.ok ⟨some [itemBadW]⟩)).impressions = 0 ∧
     (buildReport campW1 (.ok ⟨some [itemBadW]⟩)).cpc = format_currency 0) ∧
    (buildReport campW1 (.ok ⟨some [itemBadW]⟩)).clicks = (parseField itemBadW.clicks).pyInt :=
  ⟨rfl, rfl, rfl,
   ⟨(C5_field_fault_tolerance campW1 ⟨some [itemBadW]⟩ itemBadW [] rfl).1 (Or.inr rfl),
    (C5_field_fault_tolerance campW1 ⟨some [itemBadW]⟩ itemBadW [] rfl).2.2.1 (Or.inl rfl)⟩,
   (C5_field_fault_tolerance campW1 ⟨some [itemBadW]⟩ itemBadW [] rfl).2.2.2.2.1⟩

/-- **C6 counterexample**: the claim "a payload in which `account_id` is
missing or is not a non-empty string is rejected with 400 before any outbound
call" fails on the code: for the payload whose `account_id` is the JSON
number `5` (present, truthy, not a string) the handler makes the outbound
list call (`listCalls = 1`) and answers 200, not 400 — validation is Python
truthiness, not a string-type check. -/
theorem C6_counterexample :
    (get_paused_campaigns payloadNumW envEmptyListW).1.statusCode = 200 ∧
    (get_paused_campaigns payloadNumW envEmptyListW).1 ≠
      HandlerResponse.httpError 400 validationDetail ∧
    (get_paused_campaigns payloadNumW envEmptyListW).2.listCalls = 1 :=
  ⟨by decide, by decide, by decide⟩

/-- The aggregator always performs exactly one outbound list call, whatever
its outcome. -/
theorem fetch_paused_campaigns_listCalls (env : Env) :
    (fetch_paused_campaigns env).2.listCalls = 1 := by
  unfold fetch_paused_campaigns
  cases list_fetch env.listOutcome with
  | exn msg => rfl
  | ok body =>
    dsimp only
    split
    · rfl
    · rfl

/-- **C6 amended**: the handler rejects with 400 and makes no outbound call
exactly when `account_id` or `access_token` is absent or Python-falsy (null,
false, zero, the empty string, an empty array or object); the check is
truthiness only, not a string-type check: a payload whose `account_id` is
present and truthy but not a string (such as the JSON number `5`), with a
non-empty string `access_token`, is not rejected — the outbound list fetch is
attempted. -/
theorem C6_amended_validation :
    (∀ (payload : Payload) (env : Env),
       fieldTruthy payload.account_id = false ∨ fieldTruthy payload.access_token = false →
       get_paused_campaigns payload env = (.httpError 400 validationDetail, ⟨0, 0⟩)) ∧
    (∀ (payload : Payload) (env : Env) (s : String),
       fieldTruthy payload.account_id = true → payload.access_token = some (.str s) →
       s ≠ "" →
       (get_paused_campaigns payload env).1 ≠ .httpError 400 validationDetail ∧
       (get_paused_campaigns payload env).2.listCalls = 1) := by
  constructor
  · intro payload env h
    unfold get_paused_campaigns
    rcases h with h | h <;> rw [h] <;> simp
  · intro payload env s hacct hstr hs
    have htok : fieldTruthy payload.access_token = true := by
      rw [hstr]
      exact bne_iff_ne.mpr hs
    have hslice : fieldSliceable payload.access_token = true := by
      rw [hstr]
      rfl
    have hred : get_paused_campaigns payload env =
        match fetch_paused_campaigns env with
        | (.ok campaigns, t) => (.success campaigns.length campaigns, t)
        | (.exn msg, t) => (.httpError 500 msg, t) := by
      unfold get_paused_campaigns
      rw [hacct, htok, hslice]
      rfl
    have hl := fetch_paused_campaigns_listCalls env
    rcases hf : fetch_paused_campaigns env with ⟨res, tr⟩
    rw [hf] at hl
    rw [hred, hf]
    cases res with
    | ok campaigns => exact ⟨by simp, hl⟩
    | exn msg => exact ⟨by simp, hl⟩

/-- Witness for the amended C6: a payload with no `account_id` at all is
rejected with no call; the payload with numeric `account_id` and string token
is let through to the list fetch. -/
theorem C6_amended_witness :
    (fieldTruthy (Payload.mk none (some (.str "tok"))).account_id = false ∧
     get_paused_campaigns ⟨none, some (.str "tok")⟩ envW =
       (.httpError 400 validationDetail, ⟨0, 0⟩)) ∧
    (fieldTruthy payloadNumW.account_id = true ∧
     (get_paused_campaigns payloadNumW envEmptyListW).1 ≠ .httpError 400 validationDetail ∧
     (get_paused_campaigns payloadNumW envEmptyListW).2.listCalls = 1) :=
  ⟨⟨rfl, C6_amended_validation.1 ⟨none, some (.str "tok")⟩ envW (Or.inl rfl)⟩,
   ⟨rfl, C6_amended_validation.2 payloadNumW envEmptyListW "tok" rfl rfl (by decide)⟩⟩

/-- **C7**: for a request that reaches the list fetch (both fields truthy and
the token sliceable, so the eager debug f-string at line 201 does not raise),
if the list fetch fails — transport/timeout error or non-success HTTP
status — the whole request fails: no detail fetch is attempted
(`detailCalls = 0`), no partial campaign list is returned, and the handler
answers 500 whose detail is the underlying error text; for an HTTP failure
that text is `Erro {status}: {body}`, carrying the upstream status and raw
body. -/
theorem C7_list_failure_fatal (payload : Payload)
    (hacct : fieldTruthy payload.account_id = true)
    (htok : fieldTruthy payload.access_token = true)
    (hslice : fieldSliceable payload.access_token = true)
    (env : Env) :
    (∀ msg, env.listOutcome = .transportError msg →
       get_paused_campaigns payload env = (.httpError 500 msg, ⟨1, 0⟩)) ∧
    (∀ (status : Nat) (bodyText : String) (decoded : FetchResult ListBody), status ≠ 200 →
       env.listOutcome = .httpResponse status bodyText decoded →
       get_paused_campaigns payload env =
         (.httpError 500 ("Erro " ++ toString status ++ ": " ++ bodyText), ⟨1, 0⟩)) := by
  obtain ⟨lo, arrivals⟩ := env
  constructor
  · rintro msg rfl
    unfold get_paused_campaigns
    rw [hacct, htok, hslice]
    simp [fetch_paused_campaigns, list_fetch]
  · rintro status bodyText decoded hst rfl
    unfold get_paused_campaigns
    rw [hacct, htok, hslice]
    simp [fetch_paused_campaigns, list_fetch, hst]

/-- Witness for C7: a timed-out list fetch and an HTTP 403 list fetch, both
fatal with zero detail calls. -/
theorem C7_witness :
    (fieldTruthy payloadW.account_id = true ∧ fieldTruthy payloadW.access_token = true ∧
     fieldSliceable payloadW.access_token = true) ∧
    get_paused_campaigns payloadW ⟨.transportError "TimeoutError", []⟩ =
      (.httpError 500 "TimeoutError", ⟨1, 0⟩) ∧
    get_paused_campaigns payloadW ⟨.httpResponse 403 "denied" (.exn "no body"), []⟩ =
      (.httpError 500 ("Erro " ++ toString 403 ++ ": " ++ "denied"), ⟨1, 0⟩) :=
  ⟨⟨rfl, rfl, rfl⟩,
   (C7_list_failure_fatal payloadW rfl rfl rfl ⟨.transportError "TimeoutError", []⟩).1
     "TimeoutError" rfl,
   (C7_list_failure_fatal payloadW rfl rfl rfl
      ⟨.httpResponse 403 "denied" (.exn "no body"), []⟩).2
     403 "denied" (.exn "no body") (by decide) rfl⟩

/-- **C8**: every report's `cpc` field is the `.2f` rendering of the parsed
cpc value — the first data entry's parsed `cpc` on a successful detail fetch
with data, `0` otherwise; the rendering splits as an integer part, `.`, and
exactly two fractional digits, uses only digits, `.` and `-` (no currency
symbol); and `1.5` renders as `"1.50"`, `0` as `"0.00"`. -/
theorem C8_cpc_formatting (camps : List RawCampaign)
    (insights : List (FetchResult InsightResponse)) (i : Nat) (r : CampaignReport)
    (hr : (mergeReports camps insights)[i]? = some r) :
    r.cpc = format_currency (cpcSource (insights.getD i (.exn "IndexError"))) ∧
    (∃ ip fp, r.cpc = ip ++ "." ++ fp ∧ fp.length = 2 ∧ ∀ ch ∈ fp.data, ch.isDigit = true) ∧
    (∀ ch ∈ r.cpc.data, ch.isDigit = true ∨ ch = '.' ∨ ch = '-') ∧
    format_currency ⟨3, 2⟩ = "1.50" ∧ format_currency 0 = "0.00" := by
  rw [mergeReports_getElem?] at hr
  cases hc : camps[i]? with
  | none => rw [hc] at hr; cases hr
  | some c =>
    rw [hc] at hr
    simp only [Option.map_some', Option.some.injEq] at hr
    subst hr
    refine ⟨buildReport_cpc c _, ?_, ?_, by decide, by decide⟩
    · obtain ⟨ip, fp, heq, hl2, hdig, _⟩ :=
        formatFixed2_shape (cpcSource (insights.getD i (.exn "IndexError")))
      refine ⟨ip, fp, ?_, hl2, hdig⟩
      rw [buildReport_cpc]
      exact heq
    · intro ch hch
      rw [buildReport_cpc] at hch
      exact formatFixed2_chars _ ch hch

/-- Witness for C8: a report whose detail entry has cpc `3/2` (the float
`1.5`) renders `"1.50"`. -/
theorem C8_witness :
    ((mergeReports [campW1] [.ok ⟨some [⟨none, none, some (some ⟨3, 2⟩)⟩]⟩])[0]? =
       some (⟨"1", "A", "1.50", 0, 0, "0.00%"⟩ : CampaignReport)) ∧
    ((⟨"1", "A", "1.50", 0, 0, "0.00%"⟩ : CampaignReport).cpc =
       format_currency (cpcSource
         (([.ok ⟨some [⟨none, none, some (some ⟨3, 2⟩)⟩]⟩] :
            List (FetchResult InsightResponse)).getD 0 (.exn "IndexError"))) ∧
     (∃ ip fp, (⟨"1", "A", "1.50", 0, 0, "0.00%"⟩ : CampaignReport).cpc = ip ++ "." ++ fp ∧
        fp.length = 2 ∧ ∀ ch ∈ fp.data, ch.isDigit = true) ∧
     (∀ ch ∈ (⟨"1", "A", "1.50", 0, 0, "0.00%"⟩ : CampaignReport).cpc.data,
        ch.isDigit = true ∨ ch = '.' ∨ ch = '-') ∧
     format_currency ⟨3, 2⟩ = "1.50" ∧ format_currency 0 = "0.00") :=
  ⟨by decide,
   C8_cpc_formatting [campW1] [.ok ⟨some [⟨none, none, some (some ⟨3, 2⟩)⟩]⟩] 0
     ⟨"1", "A", "1.50", 0, 0, "0.00%"⟩ (by decide)⟩

/-- **C9 counterexample**: the report object returned for campaign `1` in a
successful run has no `"name"` key at all — the campaign's name is stored
under `"nome_da_campanha"` — so the claimed field set
`{id, name, cpc, impressions, clicks, ctr}` does not match the code. -/
theorem C9_counterexample :
    (fetch_paused_campaigns envW).1 =
      .ok [⟨"1", "A", "2.00", 100, 5, "5.00%"⟩, ⟨"2", "B", "0.00", 0, 0, "0.00%"⟩] ∧
    (reportDict ⟨"1", "A", "2.00", 100, 5, "5.00%"⟩).lookup "name" = none ∧
    (reportDict ⟨"1", "A", "2.00", 100, 5, "5.00%"⟩).lookup "nome_da_campanha" =
      some (.str "A") :=
  ⟨by decide, by decide, by decide⟩

/-- **C9 amended**: every report returned to the caller is an object with
exactly the keys `id`, `nome_da_campanha`, `cpc`, `impressions`, `clicks`,
`ctr` (in that order); the campaign's name from the list response appears
under the key `nome_da_campanha`, and there is no `name` key. -/
theorem C9_amended_report_shape (camps : List RawCampaign)
    (insights : List (FetchResult InsightResponse)) (i : Nat) (r : CampaignReport)
    (c : RawCampaign) (hc : camps[i]? = some c)
    (hr : (mergeReports camps insights)[i]? = some r) :
    (reportDict r).map Prod.fst =
      ["id", "nome_da_campanha", "cpc", "impressions", "clicks", "ctr"] ∧
    (reportDict r).lookup "nome_da_campanha" = some (.str (c.name.getD "")) ∧
    (reportDict r).lookup "name" = none := by
  rw [mergeReports_getElem?, hc] at hr
  simp only [Option.map_some', Option.some.injEq] at hr
  subst hr
  refine ⟨rfl, ?_, rfl⟩
  show some (RespValue.str ((buildReport c _).nome_da_campanha)) =
    some (RespValue.str (c.name.getD ""))
  rw [buildReport_nome]

/-- Witness for the amended C9: the zero-default report of campaign `1`. -/
theorem C9_amended_witness :
    ([campW1][0]? = some campW1 ∧
     (mergeReports [campW1] [.exn "boom"])[0]? =
       some (⟨"1", "A", "0.00", 0, 0, "0.00%"⟩ : CampaignReport)) ∧
    ((reportDict ⟨"1", "A", "0.00", 0, 0, "0.00%"⟩).map Prod.fst =
       ["id", "nome_da_campanha", "cpc", "impressions", "clicks", "ctr"] ∧
     (reportDict ⟨"1", "A", "0.00", 0, 0, "0.00%"⟩).lookup "nome_da_campanha" =
       some (.str (campW1.name.getD "")) ∧
     (reportDict ⟨"1", "A", "0.00", 0, 0, "0.00%"⟩).lookup "name" = none) :=
  ⟨⟨by decide, by decide⟩,
   C9_amended_report_shape [campW1] [.exn "boom"] 0 ⟨"1", "A", "0.00", 0, 0, "0.00%"⟩ campW1
     (by decide) (by decide)⟩

/-- **C10**: a list entry without an `"id"` key is fatal: the scheduling loop
raises `KeyError('id')` before the gather runs, so `fetch_paused_campaigns`
propagates the exception with zero detail calls and no campaign reported,
and — for a request that reached the aggregator (truthy fields, sliceable
token at line 201) — the handler answers 500 with detail `'id'`, even though
the merge step itself reads id and name tolerantly with empty-string
defaults. -/
theorem C10_missing_id_fatal (payload : Payload)
    (hacct : fieldTruthy payload.account_id = true)
    (htok : fieldTruthy payload.access_token = true)
    (hslice : fieldSliceable payload.access_token = true)
    (bodyText : String) (camps : List RawCampaign) (arrivals : List (Nat × DetailOutcome))
    (hbad : ∃ c ∈ camps, c.id = none) :
    fetch_paused_campaigns ⟨.httpResponse 200 bodyText (.ok ⟨some camps⟩), arrivals⟩ =
      (.exn keyErrorId, ⟨1, 0⟩) ∧
    get_paused_campaigns payload ⟨.httpResponse 200 bodyText (.ok ⟨some camps⟩), arrivals⟩ =
      (.httpError 500 keyErrorId, ⟨1, 0⟩) ∧
    (∀ (c : RawCampaign) (insight : FetchResult InsightResponse),
       (buildReport c insight).id = c.id.getD "" ∧
       (buildReport c insight).nome_da_campanha = c.name.getD "") := by
  have hall : camps.all (fun c => c.id.isSome) = false := by
    rcases hbad with ⟨c, hc, hnone⟩
    exact List.all_eq_false.mpr ⟨c, hc, by simp [hnone]⟩
  have hfetch : fetch_paused_campaigns ⟨.httpResponse 200 bodyText (.ok ⟨some camps⟩), arrivals⟩ =
      (.exn keyErrorId, ⟨1, 0⟩) := by
    unfold fetch_paused_campaigns list_fetch
    simp [hall]
  refine ⟨hfetch, ?_, fun c insight => ⟨buildReport_id c insight, buildReport_nome c insight⟩⟩
  unfold get_paused_campaigns
  rw [hacct, htok, hslice]
  simp [hfetch]

/-- Witness for C10: a single list entry `{name:"X"}` with no id. -/
theorem C10_witness :
    (fieldTruthy payloadW.account_id = true ∧ fieldSliceable payloadW.access_token = true ∧
     ∃ c ∈ [(⟨none, some "X"⟩ : RawCampaign)], c.id = none) ∧
    fetch_paused_campaigns ⟨.httpResponse 200 "lb" (.ok ⟨some [⟨none, some "X"⟩]⟩), []⟩ =
      (.exn keyErrorId, ⟨1, 0⟩) ∧
    get_paused_campaigns payloadW ⟨.httpResponse 200 "lb" (.ok ⟨some [⟨none, some "X"⟩]⟩), []⟩ =
      (.httpError 500 keyErrorId, ⟨1, 0⟩) ∧
    (∀ (c : RawCampaign) (insight : FetchResult InsightResponse),
       (buildReport c insight).id = c.id.getD "" ∧
       (buildReport c insight).nome_da_campanha = c.name.getD "") :=
  ⟨⟨rfl, rfl, by decide⟩,
   C10_missing_id_fatal payloadW rfl rfl rfl "lb" [⟨none, some "X"⟩] [] (by decide)⟩
